import Mathlib

/-!
Verification of the GLSL rendering pipeline of the voxelphile repository.

The shaders are embedded shallowly:

* GLSL `float` values are modelled as exact rationals (`ℚ`); GLSL `uint`
  values as `ℕ` (with explicit masking where the 32-bit width matters).
* Images (`image2D`, `uimage2D`, `image1D`) are modelled as total functions
  from integer texel coordinates to texel values; a compute invocation's
  `imageStore` is modelled by the invocation returning `some texel`, and an
  invocation that returns without storing is modelled by `none`.
* `vec2`/`vec3`/`vec4` and `mat4` are explicit record types over `ℚ`.

Source files embedded here:
* `src/src/graphics/boson/uber.glsl` — vertex `unpack` (direction-aware
  variant) and the edge-aware blur compute stage;
* `src/unnamed/part_000` — the earlier `unpack` variant (no direction field);
* `src/unnamed/part_006` — the SSAO compute stage;
* `src/unnamed/part_003` — the composite compute stage.
-/

/-- A GLSL `vec2` over exact rationals. -/
structure Vec2 where
  x : ℚ
  y : ℚ
deriving DecidableEq, Repr

/-- A GLSL `vec3` over exact rationals. -/
structure Vec3 where
  x : ℚ
  y : ℚ
  z : ℚ
deriving DecidableEq, Repr

/-- A GLSL `vec4` over exact rationals. -/
structure Vec4 where
  x : ℚ
  y : ℚ
  z : ℚ
  w : ℚ
deriving DecidableEq, Repr

/-- The result of `unpack` in `src/src/graphics/boson/uber.glsl` (lines
46-61): position, uv, face-direction index, atlas mapping index and tint. -/
structure UnpackedVertex where
  position : Vec4
  uv : Vec2
  dir : ℕ
  mapping : ℕ
  tint : Vec4
deriving DecidableEq, Repr

/-- The vertex `unpack` function of `src/src/graphics/boson/uber.glsl`
(lines 46-61), the later, direction-aware variant.  The four words of the
packed `uvec4` are passed as `w0 w1 w2 w3`. -/
def unpack (w0 w1 w2 w3 : ℕ) : UnpackedVertex :=
  { position :=
      { x := ((w0 >>> 16) &&& 0xFF : ℕ)
      , y := ((w0 >>> 8) &&& 0xFF : ℕ)
      , z := ((w0) &&& 0xFF : ℕ)
      , w := 1 }
  , uv :=
      { x := (((w1 >>> 16) &&& 0xFFFF : ℕ) : ℚ) / (0xFFFF : ℚ)
      , y := ((w1 &&& 0xFFFF : ℕ) : ℚ) / (0xFFFF : ℚ) }
  , dir := (w2 >>> 24) &&& 0xFF
  , mapping := w2 &&& 0xFFFFFF
  , tint :=
      { x := (((w3 >>> 24) &&& 0xFF : ℕ) : ℚ) / 255
      , y := (((w3 >>> 16) &&& 0xFF : ℕ) : ℚ) / 255
      , z := (((w3 >>> 8) &&& 0xFF : ℕ) : ℚ) / 255
      , w := ((w3 &&& 0xFF : ℕ) : ℚ) / 255 } }

/-- The result of `unpack` in `src/unnamed/part_000` (lines 44-58): the
earlier variant has no face-direction output. -/
structure UnpackedVertexV0 where
  position : Vec4
  uv : Vec2
  mapping : ℕ
  tint : Vec4
deriving DecidableEq, Repr

/-- The vertex `unpack` function of `src/unnamed/part_000` (lines 44-58),
the earlier variant: identical byte layout for position, uv and tint, but
`mapping = data.z` takes the whole third word and there is no direction
field. -/
def unpackV0 (w0 w1 w2 w3 : ℕ) : UnpackedVertexV0 :=
  { position :=
      { x := ((w0 >>> 16) &&& 0xFF : ℕ)
      , y := ((w0 >>> 8) &&& 0xFF : ℕ)
      , z := ((w0) &&& 0xFF : ℕ)
      , w := 1 }
  , uv :=
      { x := (((w1 >>> 16) &&& 0xFFFF : ℕ) : ℚ) / (0xFFFF : ℚ)
      , y := ((w1 &&& 0xFFFF : ℕ) : ℚ) / (0xFFFF : ℚ) }
  , mapping := w2
  , tint :=
      { x := (((w3 >>> 24) &&& 0xFF : ℕ) : ℚ) / 255
      , y := (((w3 >>> 16) &&& 0xFF : ℕ) : ℚ) / 255
      , z := (((w3 >>> 8) &&& 0xFF : ℕ) : ℚ) / 255
      , w := ((w3 &&& 0xFF : ℕ) : ℚ) / 255 } }

/-- Truncation of an exact rational that is known to be a natural number
(used by the encoder to turn normalized field values back into raw bits). -/
def ratToNat (q : ℚ) : ℕ := q.num.toNat

/-- Modelled from the spec: the vertex encoder is host-side code that is not
part of the shader sources; per the spec (§3 and §8) it writes, with the
same bit layout that `unpack` reads, bytes 2/1/0 of word 0 = position x/y/z,
the two 16-bit halves of word 1 = uv (normalized by 65535), the top byte of
word 2 = direction with the low 24 bits = mapping, and the four bytes of
word 3 = tint (normalized by 255). -/
def pack (u : UnpackedVertex) : ℕ × ℕ × ℕ × ℕ :=
  ( ratToNat u.position.x * 2 ^ 16 + ratToNat u.position.y * 2 ^ 8 +
      ratToNat u.position.z
  , ratToNat (u.uv.x * 0xFFFF) * 2 ^ 16 + ratToNat (u.uv.y * 0xFFFF)
  , u.dir * 2 ^ 24 + u.mapping
  , ratToNat (u.tint.x * 255) * 2 ^ 24 + ratToNat (u.tint.y * 255) * 2 ^ 16 +
      ratToNat (u.tint.z * 255) * 2 ^ 8 + ratToNat (u.tint.w * 255) )

/-- Modelled from the spec: the face-direction lookup table lives in the
G-buffer-producing shader variant, which is not among the sources; per the
spec (§3 and §8) direction codes 0-5 map to the six axis-aligned unit
normals +X, −X, +Y, −Y, +Z, −Z in that order. -/
def dirNormal : Fin 6 → ℤ × ℤ × ℤ
  | 0 => (1, 0, 0)
  | 1 => (-1, 0, 0)
  | 2 => (0, 1, 0)
  | 3 => (0, -1, 0)
  | 4 => (0, 0, 1)
  | 5 => (0, 0, -1)

/-- Helper: a natural cast to `ℚ`, divided by a positive constant and
multiplied back, then truncated, recovers the natural. -/
theorem ratToNat_div_mul (n : ℕ) (c : ℚ) (hc : c ≠ 0) :
    ratToNat ((n : ℚ) / c * c) = n := by
  rw [div_mul_cancel₀ _ hc, ratToNat]
  simp

/-- Helper: truncating a natural cast to `ℚ` recovers the natural. -/
theorem ratToNat_natCast (n : ℕ) : ratToNat ((n : ℚ)) = n := by
  rw [ratToNat]; simp

/-- C3: re-encoding the decoded tuple with the bit layout reproduces the
original words at their declared bit widths: all of words 1-3, and the
low 24 bits of word 0 (its top byte, the LOD field, is not decoded). -/
theorem unpack_pack_roundtrip (w0 w1 w2 w3 : ℕ)
    (h0 : w0 < 2 ^ 32) (h1 : w1 < 2 ^ 32) (h2 : w2 < 2 ^ 32)
    (h3 : w3 < 2 ^ 32) :
    pack (unpack w0 w1 w2 w3) = (w0 % 2 ^ 24, w1, w2, w3) := by
  have e0a := Nat.and_pow_two_sub_one_eq_mod (w0 >>> 16) 8
  have e0b := Nat.and_pow_two_sub_one_eq_mod (w0 >>> 8) 8
  have e0c := Nat.and_pow_two_sub_one_eq_mod w0 8
  have e1a := Nat.and_pow_two_sub_one_eq_mod (w1 >>> 16) 16
  have e1b := Nat.and_pow_two_sub_one_eq_mod w1 16
  have e2a := Nat.and_pow_two_sub_one_eq_mod (w2 >>> 24) 8
  have e2b := Nat.and_pow_two_sub_one_eq_mod w2 24
  have e3a := Nat.and_pow_two_sub_one_eq_mod (w3 >>> 24) 8
  have e3b := Nat.and_pow_two_sub_one_eq_mod (w3 >>> 16) 8
  have e3c := Nat.and_pow_two_sub_one_eq_mod (w3 >>> 8) 8
  have e3d := Nat.and_pow_two_sub_one_eq_mod w3 8
  norm_num at e0a e0b e0c e1a e1b e2a e2b e3a e3b e3c e3d
  simp only [pack, unpack, ratToNat_natCast,
    ratToNat_div_mul _ 0xFFFF (by norm_num),
    ratToNat_div_mul _ 255 (by norm_num)]
  rw [e0a, e0b, e0c, e1a, e1b, e2a, e2b, e3a, e3b, e3c, e3d]
  refine Prod.ext ?_ (Prod.ext ?_ (Prod.ext ?_ ?_)) <;> simp <;> omega

/-- C3 witness: the round-trip at a concrete packed word tuple. -/
theorem unpack_pack_roundtrip_witness :
    pack (unpack 0xDEADBEEF 0x12345678 0x03ABCDEF 0x40302010) =
      (0xDEADBEEF % 2 ^ 24, 0x12345678, 0x03ABCDEF, 0x40302010) :=
  unpack_pack_roundtrip 0xDEADBEEF 0x12345678 0x03ABCDEF 0x40302010
    (by norm_num) (by norm_num) (by norm_num) (by norm_num)

/-- C4: for every packed word tuple, the decoded position components lie in
[0,255], the uv components in [0,1] and the tint components in [0,1]. -/
theorem unpack_ranges (w0 w1 w2 w3 : ℕ) :
    (0 ≤ (unpack w0 w1 w2 w3).position.x ∧ (unpack w0 w1 w2 w3).position.x ≤ 255) ∧
    (0 ≤ (unpack w0 w1 w2 w3).position.y ∧ (unpack w0 w1 w2 w3).position.y ≤ 255) ∧
    (0 ≤ (unpack w0 w1 w2 w3).position.z ∧ (unpack w0 w1 w2 w3).position.z ≤ 255) ∧
    (0 ≤ (unpack w0 w1 w2 w3).uv.x ∧ (unpack w0 w1 w2 w3).uv.x ≤ 1) ∧
    (0 ≤ (unpack w0 w1 w2 w3).uv.y ∧ (unpack w0 w1 w2 w3).uv.y ≤ 1) ∧
    (0 ≤ (unpack w0 w1 w2 w3).tint.x ∧ (unpack w0 w1 w2 w3).tint.x ≤ 1) ∧
    (0 ≤ (unpack w0 w1 w2 w3).tint.y ∧ (unpack w0 w1 w2 w3).tint.y ≤ 1) ∧
    (0 ≤ (unpack w0 w1 w2 w3).tint.z ∧ (unpack w0 w1 w2 w3).tint.z ≤ 1) ∧
    (0 ≤ (unpack w0 w1 w2 w3).tint.w ∧ (unpack w0 w1 w2 w3).tint.w ≤ 1) := by
  have byte : ∀ a : ℕ, ((a &&& 0xFF : ℕ) : ℚ) ≤ 255 := fun a => by
    exact_mod_cast (Nat.and_le_right : a &&& 0xFF ≤ 0xFF)
  have u16 : ∀ a : ℕ, ((a &&& 0xFFFF : ℕ) : ℚ) ≤ 65535 := fun a => by
    exact_mod_cast (Nat.and_le_right : a &&& 0xFFFF ≤ 0xFFFF)
  simp only [unpack]
  refine ⟨⟨by positivity, byte _⟩, ⟨by positivity, byte _⟩, ⟨by positivity, byte _⟩,
    ⟨by positivity, by rw [div_le_one (by norm_num)]; exact u16 _⟩,
    ⟨by positivity, by rw [div_le_one (by norm_num)]; exact u16 _⟩,
    ⟨by positivity, by rw [div_le_one (by norm_num)]; exact byte _⟩,
    ⟨by positivity, by rw [div_le_one (by norm_num)]; exact byte _⟩,
    ⟨by positivity, by rw [div_le_one (by norm_num)]; exact byte _⟩,
    ⟨by positivity, by rw [div_le_one (by norm_num)]; exact byte _⟩⟩

/-- C7: the face-direction decode is injective on its six in-range inputs
and its image is exactly the six axis-aligned unit normals. -/
theorem dirNormal_bijective :
    Function.Injective dirNormal ∧
      (∀ i : Fin 6, dirNormal i ∈
        ({(1, 0, 0), (-1, 0, 0), (0, 1, 0), (0, -1, 0), (0, 0, 1),
          (0, 0, -1)} : Set (ℤ × ℤ × ℤ))) ∧
      (∀ v ∈ ({(1, 0, 0), (-1, 0, 0), (0, 1, 0), (0, -1, 0), (0, 0, 1),
          (0, 0, -1)} : Set (ℤ × ℤ × ℤ)), ∃ i : Fin 6, dirNormal i = v) := by
  refine ⟨?_, ?_, ?_⟩
  · intro a b hab
    fin_cases a <;> fin_cases b <;> simp_all [dirNormal]
  · intro i
    fin_cases i <;> simp [dirNormal]
  · intro v hv
    rcases hv with h | h | h | h | h | h
    · exact ⟨0, h.symm⟩
    · exact ⟨1, h.symm⟩
    · exact ⟨2, h.symm⟩
    · exact ⟨3, h.symm⟩
    · exact ⟨4, h.symm⟩
    · exact ⟨5, h.symm⟩

/-- C10: the earlier and the later unpack variants decode identical
position, uv and tint values, and their mapping values agree exactly when
the top byte of word 2 is zero. -/
theorem unpack_variants_agree (w0 w1 w2 w3 : ℕ) (h2 : w2 < 2 ^ 32) :
    (unpackV0 w0 w1 w2 w3).position = (unpack w0 w1 w2 w3).position ∧
    (unpackV0 w0 w1 w2 w3).uv = (unpack w0 w1 w2 w3).uv ∧
    (unpackV0 w0 w1 w2 w3).tint = (unpack w0 w1 w2 w3).tint ∧
    ((unpackV0 w0 w1 w2 w3).mapping = (unpack w0 w1 w2 w3).mapping ↔
      (w2 >>> 24) &&& 0xFF = 0) := by
  refine ⟨rfl, rfl, rfl, ?_⟩
  have e1 := Nat.and_pow_two_sub_one_eq_mod w2 24
  have e2 := Nat.and_pow_two_sub_one_eq_mod (w2 >>> 24) 8
  norm_num at e1 e2
  simp only [unpackV0, unpack, e1, e2]
  omega

/-- C10 witness: the variant agreement at a concrete packed word tuple whose
word 2 has a zero top byte. -/
theorem unpack_variants_agree_witness :
    (unpackV0 7 9 0x00ABCDEF 11).position = (unpack 7 9 0x00ABCDEF 11).position ∧
    (unpackV0 7 9 0x00ABCDEF 11).uv = (unpack 7 9 0x00ABCDEF 11).uv ∧
    (unpackV0 7 9 0x00ABCDEF 11).tint = (unpack 7 9 0x00ABCDEF 11).tint ∧
    ((unpackV0 7 9 0x00ABCDEF 11).mapping = (unpack 7 9 0x00ABCDEF 11).mapping ↔
      (0x00ABCDEF >>> 24) &&& 0xFF = 0) :=
  unpack_variants_agree 7 9 0x00ABCDEF 11 (by norm_num)

/-- A GLSL `mat4`, stored as four rows, so that `mulVec4` below is the
usual matrix-vector product. -/
structure Mat4 where
  r0 : Vec4
  r1 : Vec4
  r2 : Vec4
  r3 : Vec4
deriving DecidableEq, Repr

/-- The GLSL `dot` on `vec4`. -/
def dot4 (a b : Vec4) : ℚ := a.x * b.x + a.y * b.y + a.z * b.z + a.w * b.w

/-- The GLSL `dot` on `vec3`. -/
def dot3 (a b : Vec3) : ℚ := a.x * b.x + a.y * b.y + a.z * b.z

/-- The GLSL `cross` on `vec3`. -/
def cross3 (a b : Vec3) : Vec3 :=
  ⟨a.y * b.z - a.z * b.y, a.z * b.x - a.x * b.z, a.x * b.y - a.y * b.x⟩

/-- GLSL `mat4 * vec4`. -/
def mulVec4 (m : Mat4) (v : Vec4) : Vec4 :=
  ⟨dot4 m.r0 v, dot4 m.r1 v, dot4 m.r2 v, dot4 m.r3 v⟩

/-- The GLSL swizzle `.xyz`. -/
def xyz (v : Vec4) : Vec3 := ⟨v.x, v.y, v.z⟩

/-- Componentwise addition of `vec4`. -/
def add4 (a b : Vec4) : Vec4 := ⟨a.x + b.x, a.y + b.y, a.z + b.z, a.w + b.w⟩

/-- GLSL `vec4 / float` (componentwise).  GLSL division of a nonzero float
by `0.0` yields an infinity; in this exact-rational model `q / 0 = 0`.  The
claims proved below never depend on the value at a zero divisor. -/
def divScalar4 (v : Vec4) (s : ℚ) : Vec4 := ⟨v.x / s, v.y / s, v.z / s, v.w / s⟩

/-- The GLSL float-to-int conversion `int(x)`: truncation toward zero. -/
def truncQ (q : ℚ) : ℤ := if q < 0 then -⌊-q⌋ else ⌊q⌋

/-- The `Camera` struct of the compute shaders (blur, SSAO, composite):
projection, view and transform matrices plus the declared output
resolution. -/
structure Camera where
  proj : Mat4
  view : Mat4
  trans : Mat4
  resolution : ℕ × ℕ

/-- A G-buffer image: a total function from integer texel coordinates to an
`rgba32f` texel.  `imageLoad` is function application. -/
def Image : Type := ℤ × ℤ → Vec4

/-- The in-bounds test shared by the shaders' tap-rejection checks:
`!(any(lessThan(q, ivec2(0))) || any(greaterThanEqual(q, ivec2(res))))`. -/
def inBounds (res : ℕ × ℕ) (q : ℤ × ℤ) : Bool :=
  decide (0 ≤ q.1) && decide (0 ≤ q.2) &&
    decide (q.1 < (res.1 : ℤ)) && decide (q.2 < (res.2 : ℤ))

/-- The identity `mat4`, used as a concrete camera matrix in witnesses. -/
def mat4Id : Mat4 :=
  ⟨⟨1, 0, 0, 0⟩, ⟨0, 1, 0, 0⟩, ⟨0, 0, 1, 0⟩, ⟨0, 0, 0, 1⟩⟩

/-- The tap indices of the blur loop of `src/src/graphics/boson/uber.glsl`
(line 126): `for i = -dist .. dist` with `dist = 4`. -/
def blurTaps : List ℤ := [-4, -3, -2, -1, 0, 1, 2, 3, 4]

/-- The per-tap offset direction of the blur stage (lines 127-133 of the
blur shader): `off.x = 1` when the push-constant direction is 0, `off.y = 1`
when it is 1, and the zero offset otherwise. -/
def blurOff (dir : ℕ) : ℤ × ℤ :=
  (if dir = 0 then 1 else 0, if dir = 1 then 1 else 0)

/-- The tap coordinate `off_i = pos_i + i * off` of the blur loop. -/
def blurTapPos (dir : ℕ) (p : ℕ × ℕ) (i : ℤ) : ℤ × ℤ :=
  ((p.1 : ℤ) + i * (blurOff dir).1, (p.2 : ℤ) + i * (blurOff dir).2)

/-- The blur stage's tap-acceptance test (lines 135-141 of the blur
shader): a tap is accepted — `samples++` and its texel accumulated — when
it is inside the declared resolution and the `vec4` dot product of the
center pixel's normal texel with the tap's normal texel is not below 0.9. -/
def blurAccept (cam : Camera) (normalImg : Image) (dir : ℕ) (p : ℕ × ℕ)
    (i : ℤ) : Bool :=
  inBounds cam.resolution (blurTapPos dir p i) &&
    !(decide (dot4 (normalImg ((p.1 : ℤ), (p.2 : ℤ)))
        (normalImg (blurTapPos dir p i)) < 9 / 10))

/-- The blur stage's accepted-sample counter `samples` (line 142). -/
def blurSamples (cam : Camera) (normalImg : Image) (dir : ℕ)
    (p : ℕ × ℕ) : ℕ :=
  blurTaps.countP (blurAccept cam normalImg dir p)

/-- The blur stage's accumulator `_res_info` (line 143): the sum of the
blur-image texels at the accepted taps, in loop order. -/
def blurSum (cam : Camera) (normalImg blurImg : Image) (dir : ℕ)
    (p : ℕ × ℕ) : Vec4 :=
  ((blurTaps.filter (blurAccept cam normalImg dir p)).map
      (fun i => blurImg (blurTapPos dir p i))).foldl add4 ⟨0, 0, 0, 0⟩

/-- The blur compute stage `main` of `src/src/graphics/boson/uber.glsl`
(lines 116-147).  Returns `none` when the invocation exits without storing
(pixel at or beyond the declared resolution), else `some` of the `vec4`
stored to the blur image: the accumulated sum divided by the accepted
sample count. -/
def blurMain (cam : Camera) (normalImg blurImg : Image) (dir : ℕ)
    (p : ℕ × ℕ) : Option Vec4 :=
  if cam.resolution.1 ≤ p.1 ∨ cam.resolution.2 ≤ p.2 then none
  else
    some (divScalar4 (blurSum cam normalImg blurImg dir p)
      ((blurSamples cam normalImg dir p : ℕ) : ℚ))

/-- The composite compute stage `main` of `src/unnamed/part_003` (lines
18-26).  Returns `none` when the invocation exits without storing, else
`some` of the `vec4` stored to the composite image:
`vec4(ssao.r * color.rgb, 1.0)`. -/
def compositeMain (cam : Camera) (ssaoImg colorImg : Image)
    (p : ℕ × ℕ) : Option Vec4 :=
  if cam.resolution.1 ≤ p.1 ∨ cam.resolution.2 ≤ p.2 then none
  else
    some ⟨(ssaoImg ((p.1 : ℤ), (p.2 : ℤ))).x * (colorImg ((p.1 : ℤ), (p.2 : ℤ))).x,
      (ssaoImg ((p.1 : ℤ), (p.2 : ℤ))).x * (colorImg ((p.1 : ℤ), (p.2 : ℤ))).y,
      (ssaoImg ((p.1 : ℤ), (p.2 : ℤ))).x * (colorImg ((p.1 : ℤ), (p.2 : ℤ))).z, 1⟩

/-- GLSL `clamp` on floats. -/
def clampQ (x lo hi : ℚ) : ℚ := min (max x lo) hi

/-- GLSL `smoothstep(e0, e1, x)`. -/
def smoothstep (e0 e1 x : ℚ) : ℚ :=
  let t := clampQ ((x - e0) / (e1 - e0)) 0 1
  t * t * (3 - 2 * t)

/-- The SSAO stage's view-space normal fetch (lines 51 and 69 of
`src/unnamed/part_006`): `(camera.view * vec4(-imageLoad(normal_image, q).rgb, 0)).xyz`. -/
def viewNormal (cam : Camera) (normalImg : Image) (q : ℤ × ℤ) : Vec3 :=
  xyz (mulVec4 cam.view
    ⟨-(normalImg q).x, -(normalImg q).y, -(normalImg q).z, 0⟩)

/-- The SSAO sample point (line 60 of `src/unnamed/part_006`):
`frag_pos.xyz + sample_pos * radius` with `radius = 0.8`, where `s` is the
tangent-frame-rotated kernel offset. -/
def ssaoSamplePoint (fragPos s : Vec3) : Vec3 :=
  ⟨fragPos.x + s.x * (4 / 5), fragPos.y + s.y * (4 / 5),
    fragPos.z + s.z * (4 / 5)⟩

/-- The SSAO sample's projected pixel (lines 61-65 of
`src/unnamed/part_006`): project by `camera.proj`, perspective-divide,
remap to [0,1] and scale by the resolution, truncating to `ivec2`. -/
def ssaoProjPix (cam : Camera) (sp : Vec3) : ℤ × ℤ :=
  let offset := mulVec4 cam.proj ⟨sp.x, sp.y, sp.z, 1⟩
  (truncQ ((cam.resolution.1 : ℚ) * (offset.x / offset.w * (1 / 2) + 1 / 2)),
   truncQ ((cam.resolution.2 : ℚ) * (offset.y / offset.w * (1 / 2) + 1 / 2)))

/-- The body of the SSAO kernel loop (lines 59-75 of
`src/unnamed/part_006`) for one tangent-frame-rotated kernel offset `s`:
the amount this sample adds to `occlusion`.  A `continue` (projected pixel
out of bounds, or occluder normal with dot product above 0.99 with the
fragment normal) contributes 0; otherwise the contribution is the
occlusion indicator times the smoothstep range check. -/
def ssaoSampleContrib (cam : Camera) (positionImg normalImg : Image)
    (fragPos normal s : Vec3) : ℚ :=
  let samplePos := ssaoSamplePoint fragPos s
  let pix := ssaoProjPix cam samplePos
  if inBounds cam.resolution pix then
    if dot3 (viewNormal cam normalImg pix) normal > 99 / 100 then 0
    else
      let offsetPos := xyz (mulVec4 cam.view
        ⟨(positionImg pix).x, (positionImg pix).y, (positionImg pix).z, 1⟩)
      (if offsetPos.z ≤ samplePos.z - 5 / 1000 then 0 else 1) *
        smoothstep 0 1 ((4 / 5) / |fragPos.z - offsetPos.z|)
  else 0

/-- The GLSL `mat3(tangent, bitangent, normal) * v` product (column-major
constructor, line 56/59 of `src/unnamed/part_006`). -/
def tbnApply (t b n v : Vec3) : Vec3 :=
  ⟨t.x * v.x + b.x * v.y + n.x * v.z,
   t.y * v.x + b.y * v.y + n.y * v.z,
   t.z * v.x + b.z * v.y + n.z * v.z⟩

/-- Iteration `i` of the SSAO kernel loop (lines 58-75 of
`src/unnamed/part_006`): the fragment's view-space position and normal are
those computed before the loop (lines 47 and 51), and the kernel offset is
rotated by `mat3(tangent, bitangent, normal)`.  The `tangent` vector is the
one quantity of the stage that is not rational: the source computes it by
`normalize`, which involves a square root, so it is taken as a parameter
and every theorem below quantifies over it; `bitangent = cross(normal,
tangent)` exactly as in the source (line 55). -/
def ssaoKernelContrib (cam : Camera) (kernelImg : ℤ → Vec4)
    (positionImg normalImg : Image) (tangent : Vec3) (p : ℕ × ℕ)
    (i : ℕ) : ℚ :=
  let fp := positionImg ((p.1 : ℤ), (p.2 : ℤ))
  let fragPos := xyz (mulVec4 cam.view ⟨fp.x, fp.y, fp.z, 1⟩)
  let normal := viewNormal cam normalImg ((p.1 : ℤ), (p.2 : ℤ))
  let bitangent := cross3 normal tangent
  ssaoSampleContrib cam positionImg normalImg fragPos normal
    (tbnApply tangent bitangent normal (xyz (kernelImg (i : ℤ))))

/-- The loop of lines 58-76 of `src/unnamed/part_006`: `occlusion` is the
sum of the 8 kernel-sample contributions, accumulated in loop order. -/
def ssaoOcclusion (cam : Camera) (kernelImg : ℤ → Vec4)
    (positionImg normalImg : Image) (tangent : Vec3) (p : ℕ × ℕ) : ℚ :=
  (List.range 8).foldl
    (fun acc i =>
      acc + ssaoKernelContrib cam kernelImg positionImg normalImg tangent p i) 0

/-- The SSAO compute stage `main` of `src/unnamed/part_006` (lines 36-81).
Returns `none` when the invocation exits without storing (pixel at or
beyond the declared resolution); `some 0` when the position texel's
validity flag (alpha) is zero, modelling the stored `vec4(0)`; and
otherwise `some` of the scalar `1 - occlusion / 8`, modelling the stored
splat `vec4(occlusion)`. -/
def ssaoMain (cam : Camera) (kernelImg : ℤ → Vec4)
    (positionImg normalImg : Image) (tangent : Vec3)
    (p : ℕ × ℕ) : Option ℚ :=
  if cam.resolution.1 ≤ p.1 ∨ cam.resolution.2 ≤ p.2 then none
  else
    if (positionImg ((p.1 : ℤ), (p.2 : ℤ))).w = 0 then some 0
    else
      some (1 - ssaoOcclusion cam kernelImg positionImg normalImg tangent p / 8)

/-- C8: an invocation of any of the three compute stages whose pixel
coordinate is at or beyond the declared camera resolution in either
component performs no image store. -/
theorem oob_invocation_no_store (cam : Camera) (kernelImg : ℤ → Vec4)
    (positionImg normalImg blurImg ssaoImg colorImg : Image)
    (tangent : Vec3) (dir : ℕ) (p : ℕ × ℕ)
    (h : cam.resolution.1 ≤ p.1 ∨ cam.resolution.2 ≤ p.2) :
    ssaoMain cam kernelImg positionImg normalImg tangent p = none ∧
    blurMain cam normalImg blurImg dir p = none ∧
    compositeMain cam ssaoImg colorImg p = none := by
  refine ⟨?_, ?_, ?_⟩ <;>
    simp only [ssaoMain, blurMain, compositeMain, if_pos h]

/-- C8 witness: a concrete out-of-bounds invocation of each stage stores
nothing. -/
theorem oob_invocation_no_store_witness :
    ssaoMain ⟨mat4Id, mat4Id, mat4Id, (1, 1)⟩ (fun _ => ⟨0, 0, 0, 0⟩)
        (fun _ => ⟨0, 0, 0, 0⟩) (fun _ => ⟨0, 0, 0, 0⟩) ⟨1, 0, 0⟩ (5, 5) = none ∧
    blurMain ⟨mat4Id, mat4Id, mat4Id, (1, 1)⟩ (fun _ => ⟨0, 0, 0, 0⟩)
        (fun _ => ⟨0, 0, 0, 0⟩) 0 (5, 5) = none ∧
    compositeMain ⟨mat4Id, mat4Id, mat4Id, (1, 1)⟩ (fun _ => ⟨0, 0, 0, 0⟩)
        (fun _ => ⟨0, 0, 0, 0⟩) (5, 5) = none :=
  oob_invocation_no_store ⟨mat4Id, mat4Id, mat4Id, (1, 1)⟩ (fun _ => ⟨0, 0, 0, 0⟩)
    (fun _ => ⟨0, 0, 0, 0⟩) (fun _ => ⟨0, 0, 0, 0⟩) (fun _ => ⟨0, 0, 0, 0⟩)
    (fun _ => ⟨0, 0, 0, 0⟩) (fun _ => ⟨0, 0, 0, 0⟩) ⟨1, 0, 0⟩ 0 (5, 5)
    (Or.inl (by norm_num))

/-- C9: an in-bounds composite invocation stores the ssao image's red
channel multiplied into the color image's rgb, with alpha forced to 1. -/
theorem composite_formula (cam : Camera) (ssaoImg colorImg : Image)
    (p : ℕ × ℕ) (h1 : p.1 < cam.resolution.1) (h2 : p.2 < cam.resolution.2) :
    compositeMain cam ssaoImg colorImg p =
      some ⟨(ssaoImg ((p.1 : ℤ), (p.2 : ℤ))).x * (colorImg ((p.1 : ℤ), (p.2 : ℤ))).x,
        (ssaoImg ((p.1 : ℤ), (p.2 : ℤ))).x * (colorImg ((p.1 : ℤ), (p.2 : ℤ))).y,
        (ssaoImg ((p.1 : ℤ), (p.2 : ℤ))).x * (colorImg ((p.1 : ℤ), (p.2 : ℤ))).z,
        1⟩ := by
  have hc : ¬ (cam.resolution.1 ≤ p.1 ∨ cam.resolution.2 ≤ p.2) := by omega
  simp only [compositeMain, if_neg hc]

/-- C9 witness: the composite formula at a concrete in-bounds pixel, with
ssao scalar 1/2 and an arbitrary rgb color. -/
theorem composite_formula_witness :
    compositeMain ⟨mat4Id, mat4Id, mat4Id, (4, 4)⟩
        (fun _ => ⟨1 / 2, 0, 0, 1⟩) (fun _ => ⟨1 / 3, 1, 3 / 5, 1⟩) (2, 3) =
      some ⟨(1 : ℚ) / 2 * (1 / 3), 1 / 2 * 1, 1 / 2 * (3 / 5), 1⟩ :=
  composite_formula ⟨mat4Id, mat4Id, mat4Id, (4, 4)⟩
    (fun _ => ⟨1 / 2, 0, 0, 1⟩) (fun _ => ⟨1 / 3, 1, 3 / 5, 1⟩) (2, 3)
    (by norm_num) (by norm_num)

/-- C2 counterexample: at a concrete in-bounds pixel whose position texel
has validity flag 0, the SSAO stage stores the scalar 0, not 1: the claim
that the stored value is exactly 1.0 is false. -/
theorem ssao_invalid_flag_counterexample :
    ssaoMain ⟨mat4Id, mat4Id, mat4Id, (1, 1)⟩ (fun _ => ⟨0, 0, 0, 0⟩)
        (fun _ => ⟨7, 8, 9, 0⟩) (fun _ => ⟨0, 0, 1, 0⟩) ⟨1, 0, 0⟩ (0, 0) =
      some 0 ∧
    ((fun _ => (⟨7, 8, 9, 0⟩ : Vec4)) ((0 : ℤ), (0 : ℤ))).w = 0 ∧
    (some (0 : ℚ) ≠ some (1 : ℚ)) := by
  refine ⟨?_, rfl, by simp⟩
  simp [ssaoMain]

/-- C2 amended: an in-bounds SSAO invocation whose position texel has
validity flag 0 stores exactly the scalar 0 (the source stores `vec4(0)`),
not 1. -/
theorem ssao_invalid_flag_writes_zero (cam : Camera) (kernelImg : ℤ → Vec4)
    (positionImg normalImg : Image) (tangent : Vec3) (p : ℕ × ℕ)
    (h1 : p.1 < cam.resolution.1) (h2 : p.2 < cam.resolution.2)
    (hw : (positionImg ((p.1 : ℤ), (p.2 : ℤ))).w = 0) :
    ssaoMain cam kernelImg positionImg normalImg tangent p = some 0 := by
  have hc : ¬ (cam.resolution.1 ≤ p.1 ∨ cam.resolution.2 ≤ p.2) := by omega
  simp only [ssaoMain, if_neg hc, if_pos hw]

/-- C2 witness: the amended statement at a concrete pixel. -/
theorem ssao_invalid_flag_writes_zero_witness :
    ssaoMain ⟨mat4Id, mat4Id, mat4Id, (2, 2)⟩ (fun _ => ⟨0, 0, 0, 0⟩)
        (fun _ => ⟨3, 4, 5, 0⟩) (fun _ => ⟨0, 0, 1, 0⟩) ⟨1, 0, 0⟩ (1, 0) =
      some 0 :=
  ssao_invalid_flag_writes_zero ⟨mat4Id, mat4Id, mat4Id, (2, 2)⟩
    (fun _ => ⟨0, 0, 0, 0⟩) (fun _ => ⟨3, 4, 5, 0⟩) (fun _ => ⟨0, 0, 1, 0⟩)
    ⟨1, 0, 0⟩ (1, 0) (by norm_num) (by norm_num) rfl

/-- C1 counterexample: at the in-bounds pixel (0,0) of an 8×8 resolution,
with a normal image that is zero everywhere (as at no-geometry pixels), the
center self-tap fails its own similarity test (`dot(n, n) = 0 < 0.9`), so
the accepted-sample count used as the divisor is 0, not at least 1. -/
theorem blur_zero_count_counterexample :
    ((0 : ℕ) < 8 ∧ (0 : ℕ) < 8) ∧
    blurSamples ⟨mat4Id, mat4Id, mat4Id, (8, 8)⟩ (fun _ => ⟨0, 0, 0, 0⟩) 0
      (0, 0) = 0 := by
  refine ⟨⟨by norm_num, by norm_num⟩, ?_⟩
  norm_num [blurSamples, blurTaps, List.countP_cons, List.countP_nil,
    blurAccept, inBounds, blurTapPos, blurOff, dot4]

/-- C1 amended: for an in-bounds pixel whose own normal texel passes the
self-similarity test (`dot(n, n) ≥ 0.9`, as any unit-length normal does),
the accepted-sample count is at least 1 — the center self-sample is
accepted — for every direction flag.  Without that proviso the center
sample is itself rejected and the count can reach 0. -/
theorem blur_samples_pos (cam : Camera) (normalImg : Image) (dir : ℕ)
    (p : ℕ × ℕ) (h1 : p.1 < cam.resolution.1) (h2 : p.2 < cam.resolution.2)
    (hn : 9 / 10 ≤ dot4 (normalImg ((p.1 : ℤ), (p.2 : ℤ)))
      (normalImg ((p.1 : ℤ), (p.2 : ℤ)))) :
    1 ≤ blurSamples cam normalImg dir p := by
  have hacc : blurAccept cam normalImg dir p 0 = true := by
    simp only [blurAccept, blurTapPos, zero_mul, add_zero, inBounds,
      Bool.and_eq_true, decide_eq_true_eq, Bool.not_eq_true',
      decide_eq_false_iff_not, not_lt]
    refine ⟨⟨⟨⟨?_, ?_⟩, ?_⟩, ?_⟩, hn⟩ <;> omega
  have hpos : 0 < blurTaps.countP (blurAccept cam normalImg dir p) :=
    List.countP_pos.mpr ⟨0, by simp [blurTaps], hacc⟩
  simpa [blurSamples] using hpos

/-- C1 witness: the amended statement at a concrete pixel with a
unit-length center normal. -/
theorem blur_samples_pos_witness :
    1 ≤ blurSamples ⟨mat4Id, mat4Id, mat4Id, (8, 8)⟩
      (fun _ => ⟨1, 0, 0, 0⟩) 0 (0, 0) :=
  blur_samples_pos ⟨mat4Id, mat4Id, mat4Id, (8, 8)⟩ (fun _ => ⟨1, 0, 0, 0⟩)
    0 (0, 0) (by norm_num) (by norm_num) (by norm_num [dot4])

/-- Helper: `smoothstep(0, 1, x)` always lies in [0,1]. -/
theorem smoothstep01_range (x : ℚ) :
    0 ≤ smoothstep 0 1 x ∧ smoothstep 0 1 x ≤ 1 := by
  have h0 : (0 : ℚ) ≤ clampQ ((x - 0) / (1 - 0)) 0 1 := by
    unfold clampQ
    exact le_min (le_max_right _ 0) zero_le_one
  have h1 : clampQ ((x - 0) / (1 - 0)) 0 1 ≤ 1 := by
    unfold clampQ
    exact min_le_right _ _
  unfold smoothstep
  dsimp only
  constructor
  · nlinarith [h0, h1]
  · nlinarith [h0, h1, sq_nonneg (1 - clampQ ((x - 0) / (1 - 0)) 0 1)]

/-- Helper: every single SSAO kernel-sample contribution lies in [0,1]:
rejected samples contribute 0 and accepted ones a 0-or-1 indicator times a
smoothstep value. -/
theorem ssaoSampleContrib_range (cam : Camera) (positionImg normalImg : Image)
    (fragPos normal s : Vec3) :
    0 ≤ ssaoSampleContrib cam positionImg normalImg fragPos normal s ∧
      ssaoSampleContrib cam positionImg normalImg fragPos normal s ≤ 1 := by
  constructor <;>
  · unfold ssaoSampleContrib
    dsimp only
    split_ifs
    all_goals
      first
        | (rw [one_mul]; exact (smoothstep01_range _).1)
        | (rw [one_mul]; exact (smoothstep01_range _).2)
        | (rw [zero_mul]; norm_num)
        | norm_num

/-- Helper: folding `acc + f i` over a list of indices whose values all lie
in [0,1] moves the accumulator up by at most the list length. -/
theorem foldl_add_le (f : ℕ → ℚ) (hf : ∀ i, 0 ≤ f i ∧ f i ≤ 1) :
    ∀ (l : List ℕ) (a : ℚ),
      a ≤ l.foldl (fun acc i => acc + f i) a ∧
        l.foldl (fun acc i => acc + f i) a ≤ a + l.length
  | [], a => by simp
  | i :: l, a => by
    have ih := foldl_add_le f hf l (a + f i)
    have hfi := hf i
    simp only [List.foldl_cons, List.length_cons]
    constructor
    · linarith [ih.1]
    · push_cast
      linarith [ih.2]

/-- Helper: the accumulated SSAO occlusion over the 8 kernel samples lies
in [0,8]. -/
theorem ssaoOcclusion_range (cam : Camera) (kernelImg : ℤ → Vec4)
    (positionImg normalImg : Image) (tangent : Vec3) (p : ℕ × ℕ) :
    0 ≤ ssaoOcclusion cam kernelImg positionImg normalImg tangent p ∧
      ssaoOcclusion cam kernelImg positionImg normalImg tangent p ≤ 8 := by
  have h := foldl_add_le
    (ssaoKernelContrib cam kernelImg positionImg normalImg tangent p)
    (fun i => ssaoSampleContrib_range cam positionImg normalImg _ _ _)
    (List.range 8) 0
  simp only [List.length_range] at h
  push_cast at h
  norm_num at h
  unfold ssaoOcclusion
  constructor
  · linarith [h.1]
  · linarith [h.2]

/-- C6: whenever the SSAO stage stores a value, the stored scalar lies in
[0,1]; and the accumulated occlusion over the 8 kernel samples lies in
[0,8], each sample contributing a 0-or-1 indicator times a smoothstep
value. -/
theorem ssao_output_range (cam : Camera) (kernelImg : ℤ → Vec4)
    (positionImg normalImg : Image) (tangent : Vec3) (p : ℕ × ℕ) (v : ℚ)
    (h : ssaoMain cam kernelImg positionImg normalImg tangent p = some v) :
    (0 ≤ ssaoOcclusion cam kernelImg positionImg normalImg tangent p ∧
      ssaoOcclusion cam kernelImg positionImg normalImg tangent p ≤ 8) ∧
      0 ≤ v ∧ v ≤ 1 := by
  have hocc := ssaoOcclusion_range cam kernelImg positionImg normalImg tangent p
  refine ⟨hocc, ?_⟩
  unfold ssaoMain at h
  split at h
  · exact absurd h (by simp)
  · split at h
    · rw [Option.some_inj] at h
      constructor <;> rw [← h] <;> norm_num
    · rw [Option.some_inj] at h
      rw [← h]
      constructor
      · linarith [hocc.2]
      · linarith [hocc.1]

/-- C6 witness: the range theorem applied at a concrete invocation that
stores the scalar 0 (validity flag 0). -/
theorem ssao_output_range_witness :
    (0 ≤ ssaoOcclusion ⟨mat4Id, mat4Id, mat4Id, (1, 1)⟩ (fun _ => ⟨0, 0, 0, 0⟩)
        (fun _ => ⟨0, 0, 0, 0⟩) (fun _ => ⟨0, 0, 1, 0⟩) ⟨1, 0, 0⟩ (0, 0) ∧
      ssaoOcclusion ⟨mat4Id, mat4Id, mat4Id, (1, 1)⟩ (fun _ => ⟨0, 0, 0, 0⟩)
        (fun _ => ⟨0, 0, 0, 0⟩) (fun _ => ⟨0, 0, 1, 0⟩) ⟨1, 0, 0⟩ (0, 0) ≤ 8) ∧
      0 ≤ (0 : ℚ) ∧ (0 : ℚ) ≤ 1 :=
  ssao_output_range ⟨mat4Id, mat4Id, mat4Id, (1, 1)⟩ (fun _ => ⟨0, 0, 0, 0⟩)
    (fun _ => ⟨0, 0, 0, 0⟩) (fun _ => ⟨0, 0, 1, 0⟩) ⟨1, 0, 0⟩ (0, 0) 0
    (by simp [ssaoMain])

/-- C5 counterexample: a concrete kernel sample whose projected pixel is in
bounds and whose occluder normal has dot product exactly 0.99 with the
fragment normal — so the claimed `≥ 0.99` condition holds — contributes 1,
not 0: the source guard is the strict test `dot > 0.99`, which does not
fire at equality. -/
theorem ssao_guard_counterexample :
    inBounds (4, 4)
      (ssaoProjPix ⟨mat4Id, mat4Id, mat4Id, (4, 4)⟩
        (ssaoSamplePoint ⟨0, 0, 1 / 10⟩ ⟨0, 0, 0⟩)) = true ∧
    dot3
      (viewNormal ⟨mat4Id, mat4Id, mat4Id, (4, 4)⟩
        (fun _ => ⟨-(99 / 100), 0, 0, 0⟩)
        (ssaoProjPix ⟨mat4Id, mat4Id, mat4Id, (4, 4)⟩
          (ssaoSamplePoint ⟨0, 0, 1 / 10⟩ ⟨0, 0, 0⟩)))
      ⟨1, 0, 0⟩ ≥ 99 / 100 ∧
    ssaoSampleContrib ⟨mat4Id, mat4Id, mat4Id, (4, 4)⟩
      (fun _ => ⟨0, 0, 1 / 5, 1⟩) (fun _ => ⟨-(99 / 100), 0, 0, 0⟩)
      ⟨0, 0, 1 / 10⟩ ⟨1, 0, 0⟩ ⟨0, 0, 0⟩ = 1 := by
  refine ⟨?_, ?_, ?_⟩ <;>
    norm_num [ssaoSampleContrib, ssaoSamplePoint, ssaoProjPix, inBounds,
      viewNormal, truncQ, mat4Id, mulVec4, dot4, dot3, xyz, smoothstep,
      clampQ, abs_of_pos, min_def, max_def]

/-- C5 amended: a kernel sample whose projected pixel is in bounds and
whose occluder normal has dot product strictly greater than 0.99 with the
fragment normal contributes exactly zero, regardless of the occluder's
depth; at dot product exactly 0.99 the sample is not rejected. -/
theorem ssao_same_surface_guard (cam : Camera) (positionImg normalImg : Image)
    (fragPos normal s : Vec3)
    (hin : inBounds cam.resolution
      (ssaoProjPix cam (ssaoSamplePoint fragPos s)) = true)
    (hdot : dot3
      (viewNormal cam normalImg (ssaoProjPix cam (ssaoSamplePoint fragPos s)))
      normal > 99 / 100) :
    ssaoSampleContrib cam positionImg normalImg fragPos normal s = 0 := by
  unfold ssaoSampleContrib
  dsimp only
  rw [if_pos hin, if_pos hdot]

/-- C5 witness: the amended guard at a concrete sample whose occluder
normal has dot product 1 with the fragment normal. -/
theorem ssao_same_surface_guard_witness :
    ssaoSampleContrib ⟨mat4Id, mat4Id, mat4Id, (4, 4)⟩
      (fun _ => ⟨0, 0, 1 / 5, 1⟩) (fun _ => ⟨-1, 0, 0, 0⟩)
      ⟨0, 0, 1 / 10⟩ ⟨1, 0, 0⟩ ⟨0, 0, 0⟩ = 0 :=
  ssao_same_surface_guard ⟨mat4Id, mat4Id, mat4Id, (4, 4)⟩
    (fun _ => ⟨0, 0, 1 / 5, 1⟩) (fun _ => ⟨-1, 0, 0, 0⟩)
    ⟨0, 0, 1 / 10⟩ ⟨1, 0, 0⟩ ⟨0, 0, 0⟩
    (by norm_num [ssaoProjPix, ssaoSamplePoint, inBounds, truncQ, mat4Id,
      mulVec4, dot4])
    (by norm_num [ssaoProjPix, ssaoSamplePoint, viewNormal, truncQ, mat4Id,
      mulVec4, dot4, dot3, xyz])
